import Mathlib

/-!
Verification development for the libbvg repository (files src/bvgraph.c and
src/eflist.c).  The C sources are shallowly embedded: 64-bit word arrays
(`uint64_t *`) are modelled as a single natural number holding the
concatenation of the 64-bit words (word `j` occupies bits `[64*j, 64*j+64)`),
signed 64-bit values are modelled as `Int` with explicit two's-complement
pattern conversions where the C code manipulates bit patterns, and every
arithmetic operation that can wrap in C carries an explicit `% 2 ^ 64`.
C `for` loops become folds over `List.range`; the C `double` computations
`(int) log2 x` and `floor(log2 x)` (exact floor for every argument below
2 ^ 49, which covers every value reached in this development) are modelled by
the fuelled integer base-2 logarithm `log2f`.
-/

namespace LibBVG

set_option maxHeartbeats 2000000

/-! ### Error codes (eflist.c lines 19-21, bvgraph.c lines 30-40) -/

def eflist_out_of_bound : Int := -1

def eflist_spill_too_small : Int := -2

def eflist_batch_nondecreasing : Int := -3

def bvgraph_call_out_of_memory : Int := -1

def bvgraph_call_io_error : Int := -2

def bvgraph_call_unsupported : Int := -3

def bvgraph_load_error_filename_too_long : Int := 11

def bvgraph_load_error_buffer_too_small : Int := 12

def bvgraph_property_file_error : Int := 21

def bvgraph_unsupported_version : Int := 22

def bvgraph_property_file_compression_flag_error : Int := 23

def bvgraph_vertex_out_of_range : Int := 31

def bvgraph_requires_offsets : Int := 32

def bvgraph_unsupported_coding : Int := 33

/-! ### Constants (eflist.c lines 27-36) -/

def m1 : Nat := 0x5555555555555555

def m2 : Nat := 0x3333333333333333

def m4 : Nat := 0x0f0f0f0f0f0f0f0f

def m8 : Nat := 0x00ff00ff00ff00ff

def m16 : Nat := 0x0000ffff0000ffff

def m32 : Nat := 0x00000000ffffffff

def MAX_ONES_PER_INVENTORY : Nat := 8192

def MAX_SPAN : Nat := 1 <<< 16

def DEFAULT_SPILL_SIZE : Nat := 10 * 8192

/-! ### The word-array memory model

A C array `uint64_t *A` is modelled as one natural number `a`; entry `A[j]`
is the 64-bit slice starting at bit `64*j`.  `wordGet` is a read, and
`wordOr` models the only kind of write the sources perform on word arrays,
`A[j] |= v` (every store in eflist.c is an `|=` into memory that was
`memset` to zero).  The `% 2 ^ 64` in `wordOr` models the truncation of the
stored `uint64_t` value. -/

def wordGet (a : Nat) (j : Nat) : Nat := (a >>> (64 * j)) % 2 ^ 64

def wordOr (a : Nat) (j : Nat) (v : Nat) : Nat := a ||| ((v % 2 ^ 64) <<< (64 * j))

/-! ### Two's-complement helpers for `int64_t` bit manipulation

`pat64 v` is the 64-bit pattern of the signed value `v`; `ofPat64` reads a
pattern back as a signed value.  `int64Shl`, `int64Or` and `int64AndNot63`
model the C expressions `v << k`, `a | b` and `v & ~(1L << 63)` on
`int64_t`. -/

def pat64 (v : Int) : Nat := (v % (2 ^ 64 : Int)).toNat

def ofPat64 (p : Nat) : Int := if p < 2 ^ 63 then (p : Int) else (p : Int) - 2 ^ 64

def int64Shl (v : Int) (k : Nat) : Int := ofPat64 ((pat64 v <<< k) % 2 ^ 64)

def int64Or (a b : Int) : Int := ofPat64 (pat64 a ||| pat64 b)

def int64AndNot63 (v : Int) : Int := (((pat64 v) &&& (2 ^ 63 - 1) : Nat) : Int)

/-! ### `log2f`: the integer part of the base-2 logarithm, with fuel

Models `(int) (log2 q)` and `(int) floor(log2 q)` from eflist.c (lines 89
and 434).  For every `q` with `1 ≤ q < 2 ^ 49` the C `double` computation
returns exactly `⌊log2 q⌋`, which this function computes; 64 units of fuel
suffice for any 64-bit argument. -/

def log2floor : Nat → Nat → Nat
  | 0, _ => 0
  | fuel + 1, n => if 2 ≤ n then log2floor fuel (n / 2) + 1 else 0

def log2f (n : Nat) : Nat := log2floor 64 n

/-! ### `bit_array` (declared in eflist.h, inferred from its uses in eflist.c)

Fields: `s` is the per-element width (`-1` marks a single-bit array, `0` an
empty array whose `A` is `NULL`), `A` the word array, `curr` the running
element count used by `eflist_add`. -/

structure bit_array where
  s : Int
  A : Nat
  curr : Nat

/-- get_bitk, eflist.c lines 44-52: return the k-th bit of the word array. -/
def get_bitk (upper : Nat) (k : Nat) : Nat :=
  let index := k >>> 6
  let off := k &&& ((1 <<< 6) - 1)
  if wordGet upper index &&& (1 <<< off) = 0 then 0 else 1

/-- asr64: arithmetic (sign-extending) right shift of a 64-bit pattern, the
behaviour of C `x >> k` on a negative `int64_t` (gcc semantics). -/
def asr64 (x : Nat) (k : Nat) : Nat :=
  (x >>> k) ||| (if x.testBit 63 then ((1 <<< k) - 1) <<< (64 - k) else 0)

/-- bit_count, eflist.c lines 59-67: SWAR population count of a 64-bit word.
The argument is the bit pattern of the `int64_t` parameter; the C right
shifts are arithmetic (the pattern can have bit 63 set after the first
line), additions of `uint64_t`-converted operands wrap modulo 2 ^ 64. -/
def bit_count (x : Nat) : Nat :=
  let x1 := ((x &&& m1) + (asr64 x 1 &&& m1)) % 2 ^ 64
  let x2 := ((x1 &&& m2) + (asr64 x1 2 &&& m2)) % 2 ^ 64
  let x3 := ((x2 &&& m4) + (asr64 x2 4 &&& m4)) % 2 ^ 64
  let x4 := ((x3 &&& m8) + (asr64 x3 8 &&& m8)) % 2 ^ 64
  let x5 := ((x4 &&& m16) + (asr64 x4 16 &&& m16)) % 2 ^ 64
  ((x5 &&& m32) + (asr64 x5 32 &&& m32)) % 2 ^ 64

/-- bit_array_setbit, eflist.c lines 264-271. -/
def bit_array_setbit (p : bit_array) (k : Nat) : bit_array :=
  let index := k >>> 6
  let off := k &&& ((1 <<< 6) - 1)
  { p with A := wordOr p.A index (1 <<< off) }

/-- bit_array_insert, eflist.c lines 281-302: store the s-bit value `num` as
element `k` (big-endian inside each 64-bit word, possibly spanning two
words).  The C shifts `tmp << (64 - offset - s)` and `tmp << (64 - diff)`
wrap modulo 2 ^ 64, which `wordOr` performs. -/
def bit_array_insert (p : bit_array) (num : Nat) (k : Nat) : bit_array :=
  if p.s = 0 then p
  else
    let s := p.s.toNat
    let index := k * s / 64
    let off := (k * s) % 64
    if off + s ≤ 64 then
      { p with A := wordOr p.A index (num <<< (64 - off - s)) }
    else
      let diff := off + s - 64
      let a1 := wordOr p.A index (num >>> diff)
      { p with A := wordOr a1 (index + 1) (num <<< (64 - diff)) }

/-- bit_array_get, eflist.c lines 311-335: read the s-bit element `k`.
The mask `(1L << (64 - offset)) - 1` is modelled mathematically (for
`offset = 0` the C shift `1L << 64` is undefined behaviour; the value
`2 ^ 64 - 1` is the one that makes the read total). -/
def bit_array_get (p : bit_array) (k : Nat) : Nat :=
  if p.s = 0 then 0
  else
    let s := p.s.toNat
    let index := k * s / 64
    let off := (k * s) % 64
    if off + s ≤ 64 then
      let mask := ((1 <<< (64 - off)) - 1) - ((1 <<< (64 - off - s)) - 1)
      let rval := wordGet p.A index &&& mask
      rval >>> (64 - off - s)
    else
      let diff := off + s - 64
      let mask := (1 <<< (s - diff)) - 1
      let rval := wordGet p.A index &&& mask
      let next_mask := (2 ^ 64 - 1) - ((1 <<< (64 - diff)) - 1)
      let next := (wordGet p.A (index + 1) &&& next_mask) >>> (64 - diff)
      (rval <<< diff) ||| next

/-- bit_array_create, eflist.c lines 346-363: a fresh zeroed array (`A = 0`
models both the `NULL` of `s = 0` and the `memset`-zeroed allocation). -/
def bit_array_create (s : Int) (_size : Nat) : bit_array :=
  { s := s, A := 0, curr := 0 }

/-! ### `elias_fano_list` (declared in eflist.h, fields inferred from every
use in eflist.c and bvgraph.c).  `inventory` and `exact_spill` are `int64_t`
arrays modelled as functions; both are allocated with `malloc` (contents
unspecified until written), modelled as the all-zero function. -/

structure elias_fano_list where
  size : Nat
  s : Nat
  bitarraylen : Nat
  num_ones : Nat
  log2_ones_per_inventory : Nat
  ones_per_inventory : Nat
  ones_per_inventory_mask : Nat
  inventory_size : Nat
  inventory : Nat → Int
  spill_size : Int
  exact_spill : Nat → Int
  lower : bit_array
  upper : bit_array

/-- Pointwise update of a modelled `int64_t` array, `arr[k] = v`. -/
def updFn (f : Nat → Int) (k : Nat) (v : Int) : Nat → Int :=
  fun j => if j = k then v else f j

/-- eflist_init, eflist.c lines 427-443. -/
def eflist_init (num_elements : Nat) (largest : Nat) : elias_fano_list :=
  let s := if num_elements = 0 then 0 else log2f ((largest + 1) / num_elements)
  let upper_length := num_elements + (largest >>> s)
  { size := num_elements
    s := s
    bitarraylen := upper_length
    num_ones := 0
    log2_ones_per_inventory := 0
    ones_per_inventory := 0
    ones_per_inventory_mask := 0
    inventory_size := 0
    inventory := fun _ => 0
    spill_size := (DEFAULT_SPILL_SIZE : Int)
    exact_spill := fun _ => 0
    lower := bit_array_create (s : Int) num_elements
    upper := bit_array_create (-1) ((upper_length + 63) / 64) }

/-- eflist_add, eflist.c lines 452-466.  Elements are the non-negative
offsets the library stores; the `int64_t` parameter is modelled as `Nat`. -/
def eflist_add (ef : elias_fano_list) (elem : Nat) : Int × elias_fano_list :=
  if ef.lower.curr ≥ ef.size then (eflist_out_of_bound, ef)
  else
    let index := ef.lower.curr
    let mask := (1 <<< ef.s) - 1
    let val := elem &&& mask
    let lower1 := bit_array_insert ef.lower val index
    let k := (elem >>> ef.s) + index
    let upper1 := bit_array_setbit ef.upper k
    (0, { ef with
            lower := { lower1 with curr := lower1.curr + 1 }
            upper := { upper1 with curr := upper1.curr + 1 } })

/-- The order check of eflist_addbatch (eflist.c lines 479-487): scan for an
adjacent pair with `arr[i] > arr[i+1]`. -/
def pairsOK : List Nat → Bool
  | a :: b :: rest => if a ≤ b then pairsOK (b :: rest) else false
  | _ => true

/-- The add loop of eflist_addbatch (eflist.c lines 489-495): add each
element, returning the first nonzero `rval`. -/
def addAll : elias_fano_list → List Nat → Int × elias_fano_list
  | ef, [] => (0, ef)
  | ef, a :: rest =>
    let r := eflist_add ef a
    if r.1 ≠ 0 then r else addAll r.2 rest

/-- eflist_addbatch, eflist.c lines 476-497. -/
def eflist_addbatch (ef : elias_fano_list) (arr : List Nat) : Int × elias_fano_list :=
  if pairsOK arr = false then (eflist_batch_nondecreasing, ef)
  else addAll ef arr

/-! ### simple_select_build, eflist.c lines 84-165

The three `for (i = 0; i < length; i++)` scans over the upper bit array are
modelled as folds over `List.range length`; the loop-local variables that
survive an iteration form the fold state.  The C locals `start`, `span`,
`inventory_index`, `spilled` are declared once (lines 109-110) and shared by
the second and third scans; only `spilled` and `d` are re-initialised before
the third scan, so the third scan starts with the `span`, `start` and
`inventory_index` values the second scan left behind. -/

structure pass1State where
  inventory : Nat → Int
  d : Nat

/-- Body of the first scan (eflist.c lines 96-103). -/
def p1step (upperA : Nat) (lg : Nat) (mask : Nat) (st : pass1State) (i : Nat) : pass1State :=
  if get_bitk upperA i = 1 then
    let st' :=
      if st.d &&& mask = 0 then
        { st with inventory := updFn st.inventory (st.d >>> lg) ((i : Nat) : Int) }
      else st
    { st' with d := st'.d + 1 }
  else st

/-- First scan: record in `inventory` the position of every
`ones_per_inventory`-th one.  The freshly `malloc`ed inventory is modelled
as all zeroes. -/
def pass1 (upperA : Nat) (length : Nat) (lg : Nat) (mask : Nat) : pass1State :=
  (List.range length).foldl (p1step upperA lg mask) { inventory := fun _ => 0, d := 0 }

structure pass2State where
  d : Nat
  spilled : Int
  start : Int
  span : Int
  inventory_index : Nat

/-- Body of the second scan (eflist.c lines 111-123): count the ones that
belong to inventory blocks spanning at least `MAX_SPAN` bits. -/
def p2step (upperA : Nat) (num_ones : Nat) (lg : Nat) (mask : Nat) (opi : Nat)
    (inv : Nat → Int) (st : pass2State) (i : Nat) : pass2State :=
  if get_bitk upperA i = 1 then
    let st' :=
      if st.d &&& mask = 0 then
        let inventory_index := st.d >>> lg
        let start := inv inventory_index
        let span := inv (inventory_index + 1) - start
        let ones := min ((num_ones : Int) - (st.d : Int)) (opi : Int)
        { st with
            inventory_index := inventory_index, start := start, span := span,
            spilled := if span ≥ (MAX_SPAN : Int) then st.spilled + ones else st.spilled }
      else st
    { st' with d := st'.d + 1 }
  else st

def pass2 (upperA : Nat) (length : Nat) (num_ones : Nat) (lg : Nat) (mask : Nat)
    (opi : Nat) (inv : Nat → Int) : pass2State :=
  (List.range length).foldl (p2step upperA num_ones lg mask opi inv)
    { d := 0, spilled := 0, start := 0, span := 0, inventory_index := 0 }

structure pass3State where
  inventory : Nat → Int
  exact_spill : Nat → Int
  spilled : Nat
  d : Nat
  start : Int
  span : Int
  inventory_index : Nat

/-- Body of the third scan (eflist.c lines 143-162).  Note the `continue` on
line 152: when the current `span` is below `MAX_SPAN` the trailing `d ++` on
line 160 is skipped, so `d` only advances on spilled ones. -/
def p3step (upperA : Nat) (lg : Nat) (mask : Nat) (st : pass3State) (i : Nat) : pass3State :=
  if get_bitk upperA i = 1 then
    let st' :=
      if st.d &&& mask = 0 then
        let inventory_index := st.d >>> lg
        let start := st.inventory inventory_index
        let span := st.inventory (inventory_index + 1) - start
        { st with inventory_index := inventory_index, start := start, span := span }
      else st
    if st'.span < (MAX_SPAN : Int) then st'  -- `continue`: d is not incremented
    else
      let st'' :=
        if st'.d &&& mask = 0 then
          { st' with inventory := updFn st'.inventory st'.inventory_index (-(st'.spilled : Int)) }
        else st'
      { st'' with
          exact_spill := updFn st''.exact_spill st''.spilled ((i : Nat) : Int)
          spilled := st''.spilled + 1
          d := st''.d + 1 }
  else st

def pass3 (upperA : Nat) (length : Nat) (lg : Nat) (mask : Nat)
    (st0 : pass3State) : pass3State :=
  (List.range length).foldl (p3step upperA lg mask) st0

/-- simple_select_build, eflist.c lines 84-165: build the select inventory
(and spill) for the upper bit array; returns the C return value together
with the updated list. -/
def simple_select_build (ef : elias_fano_list) (num_ones : Nat) (spill_var_len : Bool) :
    Int × elias_fano_list :=
  let length := ef.bitarraylen
  let window := if length = 0 then 1 else (num_ones * MAX_ONES_PER_INVENTORY + length - 1) / length
  let lg := log2f window
  let opi := 1 <<< lg
  let mask := opi - 1
  let inv_size := (num_ones + opi - 1) / opi
  let p1 := pass1 ef.upper.A length lg mask
  let inv1 := updFn p1.inventory inv_size ((length : Nat) : Int)
  let ef1 := { ef with
                 num_ones := num_ones
                 log2_ones_per_inventory := lg
                 ones_per_inventory := opi
                 ones_per_inventory_mask := mask
                 inventory_size := inv_size
                 inventory := inv1 }
  if opi > 1 then
    let p2 := pass2 ef1.upper.A length num_ones lg mask opi inv1
    if p2.spilled > 0 ∧ ef1.spill_size < p2.spilled ∧ spill_var_len = false then
      (eflist_spill_too_small, ef1)
    else
      -- variable-length reallocation (eflist.c lines 131-135)
      let ef2 :=
        if p2.spilled > 0 ∧ ef1.spill_size < p2.spilled ∧ spill_var_len = true then
          { ef1 with spill_size := p2.spilled, exact_spill := fun _ => 0 }
        else ef1
      let p3 := pass3 ef2.upper.A length lg mask
        { inventory := ef2.inventory, exact_spill := ef2.exact_spill,
          spilled := 0, d := 0,
          start := p2.start, span := p2.span, inventory_index := p2.inventory_index }
      (0, { ef2 with inventory := p3.inventory, exact_spill := p3.exact_spill })
  else (0, ef1)

/-! ### select_rank, eflist.c lines 176-222 -/

/-- The bit-by-bit scan loops of select_rank (lines 197-204 and 213-220):
walk the listed bit indices of `word`, decrementing `subrank` at each set
bit; answer `Sum.inl position` as soon as `subrank` reaches zero, else
`Sum.inr` the remaining subrank. -/
def scanFrom (word : Nat) (base : Nat) : List Nat → Nat → Sum Int Nat
  | [], subrank => Sum.inr subrank
  | k :: rest, subrank =>
    let subrank' := if word &&& (1 <<< k) ≠ 0 ∧ subrank ≠ 0 then subrank - 1 else subrank
    if subrank' = 0 then Sum.inl ((base + k : Nat) : Int)
    else scanFrom word base rest subrank'

/-- The word-skipping loop of select_rank (lines 205-211) followed by the
final bit scan (lines 213-221).  The C `while` is unbounded (it relies on
enough ones lying ahead); `fuel` bounds it by the array size, which every
terminating C execution respects.  The trailing `Sum.inr` case models the
`return 0` on line 221. -/
def wordSkip (A : Nat) : Nat → Nat → Nat → Int
  | 0, _, _ => 0
  | fuel + 1, upper_index, subrank =>
    let ones := bit_count (wordGet A upper_index)
    if ones < subrank then wordSkip A fuel (upper_index + 1) (subrank - ones)
    else
      match scanFrom (wordGet A upper_index) (upper_index <<< 6) (List.range 64) subrank with
      | Sum.inl pos => pos
      | Sum.inr _ => 0

/-- select_rank, eflist.c lines 176-222: position of the `rank`-th one of
the upper array.  `inventory_rank & ~(1L << 63)` is `int64AndNot63`; when
the block is spilled (`inventory_rank < 0`) the spill is indexed with
`-inventory_rank + subrank`. -/
def select_rank (rank : Nat) (ef : elias_fano_list) : Int :=
  if rank ≥ ef.num_ones then eflist_out_of_bound
  else
    let inventory_index := rank >>> ef.log2_ones_per_inventory
    let inventory_rank := ef.inventory inventory_index
    let subrank := rank &&& ef.ones_per_inventory_mask
    if subrank = 0 then int64AndNot63 inventory_rank
    else if inventory_rank < 0 then
      ef.exact_spill (-inventory_rank + (subrank : Int)).toNat
    else
      let upper_index := inventory_rank.toNat >>> 6
      let off := inventory_rank.toNat &&& ((1 <<< 6) - 1)
      match scanFrom (wordGet ef.upper.A upper_index) (upper_index <<< 6)
          (List.range' (off + 1) (63 - off)) subrank with
      | Sum.inl pos => pos
      | Sum.inr subrank' =>
        wordSkip ef.upper.A ((ef.bitarraylen >>> 6) + 2) (upper_index + 1) subrank'

/-- eflist_lookup, eflist.c lines 231-237: recover element `index` as
`((highx - index) << s) | lowx` on `int64_t`. -/
def eflist_lookup (ef : elias_fano_list) (index : Nat) : Int :=
  let lowx := bit_array_get ef.lower index
  let highx := select_rank index ef
  int64Or (int64Shl (highx - (index : Int)) ef.s) ((lowx : Nat) : Int)

/-! ### bvgraph_error_string, bvgraph.c lines 457-498

A faithful transcription of the if/else chain, including the duplicated
`code == bvgraph_call_io_error` test on line 480 (which makes the branch
returning "the file version is not supported" dead code). -/

def bvgraph_error_string (code : Int) : String :=
  if code = bvgraph_call_out_of_memory then "malloc error --- probably out of memory"
  else if code = bvgraph_call_io_error then "io error --- probably file not found"
  else if code = bvgraph_call_unsupported then "the call tried to perform an unsupported operation"
  else if code = bvgraph_load_error_filename_too_long then "filename too long to store"
  else if code = bvgraph_load_error_buffer_too_small then "one of the provided buffers was too small"
  else if code = bvgraph_property_file_error then "the property file is not a valid property file format"
  else if code = bvgraph_property_file_compression_flag_error then
    "the property file contained an unknown compression flag"
  else if code = bvgraph_call_io_error then "the file version is not supported"
  else if code = bvgraph_vertex_out_of_range then "vertex is out of range"
  else if code = bvgraph_requires_offsets then "offsets are required"
  else if code = bvgraph_unsupported_coding then "coding unsupported"
  else if code = 0 then "the call succeeded"
  else "unknown error"

/-! ### bvgraph_close, bvgraph.c lines 296-306

The descriptor fields that drive `bvgraph_close` (the ownership flags and
`use_ef`); the other fields of `struct bvgraph` play no role in the close
path.  `bvgraph_close` frees `memory` and `offsets` according to the
ownership flags, then `memset`s the descriptor to zero, and only then tests
`g->use_ef` to decide whether to free the Elias-Fano structures — reading
the flag from the just-zeroed descriptor. -/

structure bvgraph_state where
  memory_external : Bool
  offsets_external : Bool
  use_ef : Bool

def zeroed_bvgraph : bvgraph_state :=
  { memory_external := false, offsets_external := false, use_ef := false }

structure close_result where
  freed_memory : Bool
  freed_offsets : Bool
  freed_ef : Bool
  final : bvgraph_state

def bvgraph_close (g : bvgraph_state) : close_result :=
  let freed_memory := !g.memory_external     -- line 298
  let freed_offsets := !g.offsets_external   -- line 299
  let g1 := zeroed_bvgraph                   -- line 300: memset(g, 0, sizeof(bvgraph))
  let freed_ef := g1.use_ef                  -- lines 301-303: if (g->use_ef) eflist_free(...)
  { freed_memory := freed_memory, freed_offsets := freed_offsets,
    freed_ef := freed_ef, final := g1 }

/-! ### bvgraph_load_external, bvgraph.c lines 133-283

The file-system and out-of-src subroutine outcomes (parse_properties, fsize,
malloc, fopen/fread, load_offset_from_file, load_offset_online,
build_efcode) are abstracted into an environment record; the control flow of
bvgraph_load_external itself — which return values it checks, which it
drops, and what it finally returns — is transcribed from the source. -/

structure load_env where
  filename_too_long : Bool      -- line 142: filenamelen > BVGRAPH_MAX_FILENAME_SIZE-1
  parse_rval : Int              -- line 155: parse_properties(g)
  n : Nat                       -- g->n as set by parse_properties
  fsize_ok : Bool               -- line 169: fsize(...)
  graphfilesize : Nat
  malloc_ok : Bool              -- line 187: g->memory = malloc(...)
  fopen_ok : Bool               -- line 198: fopen(...)
  bytesread : Nat               -- line 203: fread(...)
  load_offset_from_file_rval : Int
  load_offset_online_rval : Int
  build_efcode0_rval : Int      -- build_efcode(g, 0)
  build_efcode1_rval : Int      -- build_efcode(g, 1)

structure load_result where
  rval : Int
  use_ef : Bool
  offsets_external : Bool
  memory_external : Bool
  memory_size : Nat

def bvgraph_load_body (env : load_env) (offset_step : Int) (offsets_null : Bool)
    (memory_external : Bool) (memory_size : Nat) : load_result :=
  if offset_step = 1 then
    -- lines 212-226: load offsets; on failure fall back to online
    -- construction; both return values are dropped
    let r := env.load_offset_from_file_rval
    let _r2 := if r ≠ 0 then env.load_offset_online_rval else 0
    { rval := 0, use_ef := false, offsets_external := (offsets_null = false),
      memory_external := memory_external, memory_size := memory_size }
  else if offset_step = 2 then
    -- lines 227-235: rval = build_efcode(g,0) is tested only to decide
    -- whether to run build_efcode(g,1); the function still returns 0
    let r := env.build_efcode0_rval
    let _r2 := if r = 0 then env.build_efcode1_rval else 0
    { rval := 0, use_ef := true, offsets_external := true,
      memory_external := memory_external, memory_size := memory_size }
  else if 2 < offset_step then
    -- lines 236-259: compare g->n * 8 (bytes) with offset_step
    if (8 * env.n : Int) > offset_step then
      let r := env.build_efcode0_rval
      let _r2 := if r = 0 then env.build_efcode1_rval else 0
      { rval := 0, use_ef := true, offsets_external := true,
        memory_external := memory_external, memory_size := memory_size }
    else
      let r := env.load_offset_from_file_rval
      let _r2 := if r ≠ 0 then env.load_offset_online_rval else 0
      { rval := 0, use_ef := false, offsets_external := false,
        memory_external := memory_external, memory_size := memory_size }
  else
    -- offset_step = 0: graph only
    { rval := 0, use_ef := false, offsets_external := false,
      memory_external := memory_external, memory_size := memory_size }

def bvgraph_load_external (env : load_env) (offset_step : Int)
    (gmemory_null : Bool) (gmemsize : Nat) (offsets_null : Bool) : load_result :=
  if env.filename_too_long then
    { rval := bvgraph_load_error_filename_too_long,
      use_ef := false, offsets_external := false, memory_external := false, memory_size := 0 }
  else if env.parse_rval ≠ 0 then
    { rval := env.parse_rval,
      use_ef := false, offsets_external := false, memory_external := false, memory_size := 0 }
  else if 0 ≤ offset_step then
    if env.fsize_ok = false then
      { rval := bvgraph_call_io_error,
        use_ef := false, offsets_external := false, memory_external := false, memory_size := 0 }
    else if gmemory_null = false ∧ gmemsize < env.graphfilesize then
      { rval := bvgraph_load_error_buffer_too_small,
        use_ef := false, offsets_external := false, memory_external := false, memory_size := 0 }
    else if gmemory_null = true ∧ env.malloc_ok = false then
      { rval := bvgraph_call_out_of_memory,
        use_ef := false, offsets_external := false, memory_external := false, memory_size := 0 }
    else
      let memory_external := gmemory_null = false
      let memory_size := if gmemory_null = false then gmemsize else env.graphfilesize
      if env.fopen_ok = false then
        { rval := bvgraph_call_io_error,
          use_ef := false, offsets_external := false,
          memory_external := memory_external, memory_size := memory_size }
      else if env.bytesread ≠ env.graphfilesize then
        { rval := bvgraph_call_io_error,
          use_ef := false, offsets_external := false,
          memory_external := memory_external, memory_size := memory_size }
      else
        -- g->use_ef = 0 (line 210), then the offset_step dispatch
        bvgraph_load_body env offset_step offsets_null memory_external memory_size
  else
    if offset_step = -1 then
      { rval := 0, use_ef := false, offsets_external := false,
        memory_external := false, memory_size := 0 }
    else
      -- lines 266-276: graph on disk, EF code for the offsets
      let r := env.build_efcode0_rval
      let _r2 := if r = 0 then env.build_efcode1_rval else 0
      { rval := 0, use_ef := true, offsets_external := true,
        memory_external := false, memory_size := 0 }

/-! ### bvgraph_required_memory, bvgraph.c lines 310-393

`eflist_size` (lines 310-326) needs `build_last = (uint64_t)
(g->bits_per_link * g->m)`, a `double` product; it enters the model as an
environment value.  The `double` logarithms are modelled by `log2f` as in
eflist.c. -/

structure mem_env where
  fsize_ok : Bool
  graphfilesize : Nat
  build_last : Nat

def eflist_size (env : mem_env) (n : Nat) : Nat :=
  let build_last := env.build_last
  let u := build_last + 1
  let s := if n = 0 then 0 else log2f (u / n)
  let lower_bytes := (s * n + 63) / 64 * 8
  let upper_length := n + (build_last >>> s)
  let upper_bytes := (upper_length + 63) / 64 * 8
  let window := if upper_length = 0 then 1
                else (n * MAX_ONES_PER_INVENTORY + upper_length - 1) / upper_length
  let lg := log2f window
  let opi := 1 <<< lg
  let inventory_size := (n + opi - 1) / opi
  lower_bytes + upper_bytes + inventory_size * 8 + DEFAULT_SPILL_SIZE * 8

/-- bvgraph_required_memory: returns (rval, (gbuf, offsetbuf, efbuf)). -/
def bvgraph_required_memory (env : mem_env) (n : Nat) (offset_step : Int) :
    Int × (Nat × Nat × Nat) :=
  if offset_step ≤ -1 then
    (0, (0, 0, if offset_step < -1 then eflist_size env n else 0))
  else
    if env.fsize_ok = false then (bvgraph_call_io_error, (0, 0, 0))
    else
      let gbuf := env.graphfilesize
      if offset_step = 1 then (0, (gbuf, 8 * n, 0))
      else if offset_step = 2 then (0, (gbuf, 0, eflist_size env n))
      else if 2 < offset_step then
        -- line 380: offset_step * (1L << 20) >= sizeof(unsigned long long) * g->n
        if offset_step * (1 <<< 20 : Int) ≥ (8 * n : Int) then (0, (gbuf, 8 * n, 0))
        else (0, (gbuf, 0, eflist_size env n))
      else (0, (gbuf, 0, 0))

/-! ### Generic lemmas about the bit-array reads and the scan folds -/

theorem and_two_pow_eq_zero_iff (w r : Nat) : w &&& 2 ^ r = 0 ↔ w.testBit r = false := by
  constructor
  · intro h
    have h2 : (w &&& 2 ^ r).testBit r = false := by rw [h]; exact Nat.zero_testBit r
    rw [Nat.testBit_and, Nat.testBit_two_pow_self, Bool.and_true] at h2
    exact h2
  · intro h
    apply Nat.eq_of_testBit_eq
    intro i
    rw [Nat.testBit_and, Nat.zero_testBit, Nat.testBit_two_pow]
    rcases eq_or_ne r i with rfl | hne
    · rw [h, Bool.false_and]
    · simp [hne]

/-- The k-th bit read of the word-array model agrees with `Nat.testBit`. -/
theorem get_bitk_eq_testBit (a k : Nat) :
    get_bitk a k = if a.testBit k then 1 else 0 := by
  have hsh : (1 : Nat) <<< (k &&& ((1 <<< 6) - 1)) = 2 ^ (k % 64) := by
    have h63 : k &&& ((1 <<< 6) - 1) = k % 64 := by
      have : ((1 : Nat) <<< 6) - 1 = 2 ^ 6 - 1 := by decide
      rw [this, Nat.and_pow_two_sub_one_eq_mod]
    rw [h63, Nat.shiftLeft_eq, one_mul]
  have hbit : (wordGet a (k >>> 6)).testBit (k % 64) = a.testBit k := by
    unfold wordGet
    rw [Nat.testBit_mod_two_pow, Nat.testBit_shiftRight]
    have hlt : k % 64 < 64 := Nat.mod_lt _ (by omega)
    have hidx : 64 * (k >>> 6) + k % 64 = k := by
      rw [Nat.shiftRight_eq_div_pow]
      have := Nat.div_add_mod k 64
      omega
    rw [hidx]
    simp [hlt]
  simp only [get_bitk]
  rw [hsh]
  rcases hb : a.testBit k with _ | _
  · rw [if_pos ((and_two_pow_eq_zero_iff _ _).mpr (hbit.trans hb))]
    simp
  · have hne : ¬ (wordGet a (k >>> 6)) &&& 2 ^ (k % 64) = 0 := by
      intro h0
      have h1 := (and_two_pow_eq_zero_iff _ _).mp h0
      rw [hbit, hb] at h1
      simp at h1
    rw [if_neg hne]
    simp

/-- Each scan body is the identity on positions whose bit is clear. -/
theorem p1step_skip (A lg mask : Nat) (st : pass1State) (i : Nat)
    (h : A.testBit i = false) : p1step A lg mask st i = st := by
  unfold p1step
  rw [get_bitk_eq_testBit, h]
  simp

theorem p2step_skip (A n lg mask opi : Nat) (inv : Nat → Int) (st : pass2State) (i : Nat)
    (h : A.testBit i = false) : p2step A n lg mask opi inv st i = st := by
  unfold p2step
  rw [get_bitk_eq_testBit, h]
  simp

theorem p3step_skip (A lg mask : Nat) (st : pass3State) (i : Nat)
    (h : A.testBit i = false) : p3step A lg mask st i = st := by
  unfold p3step
  rw [get_bitk_eq_testBit, h]
  simp

/-- Folding a step function that is the identity off the support of `A` over
an all-zeroes interval changes nothing. -/
theorem foldl_skip {σ : Type} (F : σ → Nat → σ) (A : Nat)
    (hF : ∀ st i, A.testBit i = false → F st i = st) (m : Nat) :
    ∀ (a : Nat), (∀ x, a ≤ x → x < a + m → A.testBit x = false) →
      ∀ (st : σ), (List.range' a m).foldl F st = st := by
  induction m with
  | zero => intro a _ st; rfl
  | succ k ih =>
    intro a h st
    rw [List.range'_succ, List.foldl_cons, hF st a (h a le_rfl (by omega))]
    exact ih (a + 1) (fun x hx1 hx2 => h x (by omega) (by omega)) st

/-- Split a fold over `range' a (m + k)` at position `a + m`. -/
theorem foldl_range'_split {σ : Type} (F : σ → Nat → σ) (a m k : Nat) (st : σ) :
    (List.range' a (m + k)).foldl F st =
      (List.range' (a + m) k).foldl F ((List.range' a m).foldl F st) := by
  rw [← List.foldl_append, List.range'_append_1, Nat.add_comm k m]

/-- Characterization of `simple_select_build` in the regime the claims
exercise: a nonempty bit array, more than one one per inventory, and a
spill count within the pre-allocated spill. -/
theorem build_spillfit (ef : elias_fano_list) (num_ones : Nat) (v : Bool)
    (window lg : Nat) (p1r : pass1State) (p2r : pass2State) (p3r : pass3State)
    (hwin : (if ef.bitarraylen = 0 then 1
             else (num_ones * MAX_ONES_PER_INVENTORY + ef.bitarraylen - 1) / ef.bitarraylen)
            = window)
    (hlg : log2f window = lg)
    (hopi : 1 < 1 <<< lg)
    (hp1 : pass1 ef.upper.A ef.bitarraylen lg (1 <<< lg - 1) = p1r)
    (hp2 : pass2 ef.upper.A ef.bitarraylen num_ones lg (1 <<< lg - 1) (1 <<< lg)
             (updFn p1r.inventory ((num_ones + (1 <<< lg) - 1) / (1 <<< lg))
               ((ef.bitarraylen : Nat) : Int)) = p2r)
    (hspill : ¬ (p2r.spilled > 0 ∧ ef.spill_size < p2r.spilled))
    (hp3 : pass3 ef.upper.A ef.bitarraylen lg (1 <<< lg - 1)
             { inventory := updFn p1r.inventory ((num_ones + (1 <<< lg) - 1) / (1 <<< lg))
                              ((ef.bitarraylen : Nat) : Int)
               exact_spill := ef.exact_spill
               spilled := 0, d := 0
               start := p2r.start, span := p2r.span,
               inventory_index := p2r.inventory_index } = p3r) :
    simple_select_build ef num_ones v =
      (0, { ef with
              num_ones := num_ones
              log2_ones_per_inventory := lg
              ones_per_inventory := 1 <<< lg
              ones_per_inventory_mask := 1 <<< lg - 1
              inventory_size := (num_ones + (1 <<< lg) - 1) / (1 <<< lg)
              inventory := p3r.inventory
              exact_spill := p3r.exact_spill }) := by
  simp only [simple_select_build]
  rw [hwin, hlg, hp1]
  rw [if_pos hopi]
  rw [hp2]
  rw [if_neg (by intro hc; exact hspill ⟨hc.1, hc.2.1⟩)]
  rw [if_neg (by intro hc; exact hspill ⟨hc.1, hc.2.1⟩)]
  rw [hp3]

/-! ### Instance for claims C2: an Elias-Fano list whose upper array has 9
ones at positions 5, 6, 65600..65606 in 65610 bits.  Its inventory holds
2 ones per entry; block 0 (ones 0 and 1) spans 65600 - 5 ≥ 2^16 bits, so the
build spills it — and stores `-0 = 0` in `inventory[0]`, destroying the
recorded position 5 of the first one. -/

def uC2 : Nat := (96 : Nat) ||| (127 <<< 65600)

def efC2in : elias_fano_list :=
  { size := 9, s := 0, bitarraylen := 65610, num_ones := 0,
    log2_ones_per_inventory := 0, ones_per_inventory := 0,
    ones_per_inventory_mask := 0, inventory_size := 0,
    inventory := fun _ => 0, spill_size := (DEFAULT_SPILL_SIZE : Int),
    exact_spill := fun _ => 0,
    lower := { s := 0, A := 0, curr := 9 },
    upper := { s := -1, A := uC2, curr := 9 } }

def p1invC2 : Nat → Int :=
  updFn (updFn (updFn (updFn (updFn (fun _ => 0) 0 5) 1 65600) 2 65602) 3 65604) 4 65606

def p1C2res : pass1State := { inventory := p1invC2, d := 9 }

def inv1C2 : Nat → Int := updFn p1invC2 5 65610

def p2C2res : pass2State :=
  { d := 9, spilled := 2, start := 65606, span := 4, inventory_index := 4 }

def spillC2 : Nat → Int := updFn (updFn (fun _ => 0) 0 5) 1 6

def p3C2res : pass3State :=
  { inventory := updFn inv1C2 0 0, exact_spill := spillC2,
    spilled := 2, d := 2, start := 65600, span := 2, inventory_index := 1 }

def efC2lit : elias_fano_list :=
  { efC2in with
    num_ones := 9
    log2_ones_per_inventory := 1
    ones_per_inventory := 1 <<< 1
    ones_per_inventory_mask := 1 <<< 1 - 1
    inventory_size := (9 + 1 <<< 1 - 1) / 1 <<< 1
    inventory := p3C2res.inventory
    exact_spill := p3C2res.exact_spill }

theorem uC2_zeros : ∀ x, 7 ≤ x → x < 65600 → uC2.testBit x = false := by
  intro x h7 hlt
  have hlow : ((96 : Nat)).testBit x = false := by
    apply Nat.testBit_lt_two_pow
    calc (96 : Nat) < 2 ^ 7 := by decide
    _ ≤ 2 ^ x := Nat.pow_le_pow_right (by decide) h7
  have hhi : ((127 : Nat) <<< 65600).testBit x = false := by
    rw [Nat.testBit_shiftLeft]
    have : ¬ (65600 ≤ x) := by omega
    simp [this]
  unfold uC2
  rw [Nat.testBit_lor, hlow, hhi]
  rfl

theorem p1C2 : pass1 uC2 65610 1 1 = p1C2res := by
  unfold pass1
  rw [List.range_eq_range']
  rw [show (65610 : Nat) = 7 + (65593 + 10) from by norm_num]
  rw [foldl_range'_split, foldl_range'_split]
  rw [foldl_skip (p1step uC2 1 1) uC2 (p1step_skip uC2 1 1) 65593 (0 + 7)
       (fun x hx1 hx2 => uC2_zeros x (by omega) (by omega))]
  rfl

theorem p2C2 : pass2 uC2 65610 9 1 1 2 inv1C2 = p2C2res := by
  unfold pass2
  rw [List.range_eq_range']
  rw [show (65610 : Nat) = 7 + (65593 + 10) from by norm_num]
  rw [foldl_range'_split, foldl_range'_split]
  rw [foldl_skip (p2step uC2 9 1 1 2 inv1C2) uC2 (p2step_skip uC2 9 1 1 2 inv1C2) 65593 (0 + 7)
       (fun x hx1 hx2 => uC2_zeros x (by omega) (by omega))]
  rfl

theorem p3C2 : pass3 uC2 65610 1 1
    { inventory := inv1C2, exact_spill := fun _ => 0, spilled := 0, d := 0,
      start := 65606, span := 4, inventory_index := 4 } = p3C2res := by
  unfold pass3
  rw [List.range_eq_range']
  rw [show (65610 : Nat) = 7 + (65593 + 10) from by norm_num]
  rw [foldl_range'_split, foldl_range'_split]
  rw [foldl_skip (p3step uC2 1 1) uC2 (p3step_skip uC2 1 1) 65593 (0 + 7)
       (fun x hx1 hx2 => uC2_zeros x (by omega) (by omega))]
  rfl

theorem buildC2 : simple_select_build efC2in 9 false = (0, efC2lit) :=
  build_spillfit efC2in 9 false 2 1 p1C2res p2C2res p3C2res
    (by decide) (by decide) (by decide) p1C2 p2C2 (by decide) p3C2

/-! ### Instance for claim C3: 9 ones at positions 0, 1, 2, 3, 65600..65604
in 65610 bits.  Block 1 (ones 2 and 3) spans 65600 - 2 ≥ 2^16 bits and the
second scan counts its 2 ones as spilled, but the third scan freezes on
block 0 (whose span is 2 < 2^16): the `continue` skips `d ++`, so `d` never
leaves block 0 and no spill is ever recorded. -/

def uC3 : Nat := (15 : Nat) ||| (31 <<< 65600)

def efC3in : elias_fano_list :=
  { efC2in with upper := { s := -1, A := uC3, curr := 9 } }

def p1invC3 : Nat → Int :=
  updFn (updFn (updFn (updFn (updFn (fun _ => 0) 0 0) 1 2) 2 65600) 3 65602) 4 65604

def p1C3res : pass1State := { inventory := p1invC3, d := 9 }

def inv1C3 : Nat → Int := updFn p1invC3 5 65610

def p2C3res : pass2State :=
  { d := 9, spilled := 2, start := 65604, span := 6, inventory_index := 4 }

def p3C3res : pass3State :=
  { inventory := inv1C3, exact_spill := fun _ => 0,
    spilled := 0, d := 0, start := 0, span := 2, inventory_index := 0 }

def efC3lit : elias_fano_list :=
  { efC3in with
    num_ones := 9
    log2_ones_per_inventory := 1
    ones_per_inventory := 1 <<< 1
    ones_per_inventory_mask := 1 <<< 1 - 1
    inventory_size := (9 + 1 <<< 1 - 1) / 1 <<< 1
    inventory := p3C3res.inventory
    exact_spill := p3C3res.exact_spill }

theorem uC3_zeros : ∀ x, 4 ≤ x → x < 65600 → uC3.testBit x = false := by
  intro x h4 hlt
  have hlow : ((15 : Nat)).testBit x = false := by
    apply Nat.testBit_lt_two_pow
    calc (15 : Nat) < 2 ^ 4 := by decide
    _ ≤ 2 ^ x := Nat.pow_le_pow_right (by decide) h4
  have hhi : ((31 : Nat) <<< 65600).testBit x = false := by
    rw [Nat.testBit_shiftLeft]
    have : ¬ (65600 ≤ x) := by omega
    simp [this]
  unfold uC3
  rw [Nat.testBit_lor, hlow, hhi]
  rfl

theorem p1C3 : pass1 uC3 65610 1 1 = p1C3res := by
  unfold pass1
  rw [List.range_eq_range']
  rw [show (65610 : Nat) = 4 + (65596 + 10) from by norm_num]
  rw [foldl_range'_split, foldl_range'_split]
  rw [foldl_skip (p1step uC3 1 1) uC3 (p1step_skip uC3 1 1) 65596 (0 + 4)
       (fun x hx1 hx2 => uC3_zeros x (by omega) (by omega))]
  rfl

theorem p2C3 : pass2 uC3 65610 9 1 1 2 inv1C3 = p2C3res := by
  unfold pass2
  rw [List.range_eq_range']
  rw [show (65610 : Nat) = 4 + (65596 + 10) from by norm_num]
  rw [foldl_range'_split, foldl_range'_split]
  rw [foldl_skip (p2step uC3 9 1 1 2 inv1C3) uC3 (p2step_skip uC3 9 1 1 2 inv1C3) 65596 (0 + 4)
       (fun x hx1 hx2 => uC3_zeros x (by omega) (by omega))]
  rfl

theorem p3C3 : pass3 uC3 65610 1 1
    { inventory := inv1C3, exact_spill := fun _ => 0, spilled := 0, d := 0,
      start := 65604, span := 6, inventory_index := 4 } = p3C3res := by
  unfold pass3
  rw [List.range_eq_range']
  rw [show (65610 : Nat) = 4 + (65596 + 10) from by norm_num]
  rw [foldl_range'_split, foldl_range'_split]
  rw [foldl_skip (p3step uC3 1 1) uC3 (p3step_skip uC3 1 1) 65596 (0 + 4)
       (fun x hx1 hx2 => uC3_zeros x (by omega) (by omega))]
  rfl

theorem buildC3 : simple_select_build efC3in 9 false = (0, efC3lit) :=
  build_spillfit efC3in 9 false 2 1 p1C3res p2C3res p3C3res
    (by decide) (by decide) (by decide) p1C3 p2C3 (by decide) p3C3

/-- C2: the claim states that for every rank `k < num_ones`, `select_rank k`
returns a position `p` with bit `p` of the upper array set (and rank `k+1`
among the set bits).  On the list built from `efC2in` — whose select
structure was built successfully — the first inventory block is spilled,
the build stores `-0 = 0` in `inventory[0]`, and `select_rank 0` returns
position 0 although bit 0 of the upper array is clear (the first one sits
at position 5): the code contradicts the documented behaviour of its
select structure. -/
theorem C2_select_rank_spilled_block_broken :
    select_rank 0 (simple_select_build efC2in 9 false).2 = 0 ∧
    get_bitk (simple_select_build efC2in 9 false).2.upper.A 0 = 0 ∧
    get_bitk (simple_select_build efC2in 9 false).2.upper.A 5 = 1 := by
  have h : (simple_select_build efC2in 9 false).2 = efC2lit := congrArg Prod.snd buildC2
  rw [h]
  exact ⟨by decide, by decide, by decide⟩

/-- C3: the claim states that after `simple_select_build` every inventory
block spanning at least 2^16 bits holds the negated spill index and its ones
are recorded in `exact_spill`.  On the list built from `efC3in` the build
returns 0 and block 1 spans `inventory[2] - inventory[1] = 65598 ≥ 2^16`
bits, yet its inventory entry remains the positive position 2 (not a
negated spill index): the third scan's `continue` skips `d++`, so after
the unspilled block 0 no block is ever marked spilled. -/
theorem C3_pass3_never_spills_after_unspilled_block :
    (simple_select_build efC3in 9 false).1 = 0 ∧
    (simple_select_build efC3in 9 false).2.inventory 2 -
        (simple_select_build efC3in 9 false).2.inventory 1 ≥ (MAX_SPAN : Int) ∧
    0 < (simple_select_build efC3in 9 false).2.inventory 1 := by
  have h : (simple_select_build efC3in 9 false).2 = efC3lit := congrArg Prod.snd buildC3
  refine ⟨by rw [buildC3], ?_, ?_⟩
  · rw [h]; decide
  · rw [h]; decide

/-! ### Claim C4: error propagation in bvgraph_load_external -/

def envC4 : load_env :=
  { filename_too_long := false
    parse_rval := 0
    n := 5
    fsize_ok := true
    graphfilesize := 100
    malloc_ok := true
    fopen_ok := true
    bytesread := 100
    load_offset_from_file_rval := 1
    load_offset_online_rval := 0
    build_efcode0_rval := eflist_spill_too_small
    build_efcode1_rval := 0 }

/-- C4: the claim states a failing build of the auxiliary offset structures
(here `build_efcode` reporting `eflist_spill_too_small` under
`offset_step = 2`) makes `bvgraph_load_external` return that nonzero error.
In the source the build's return value is only used to decide whether to
run the second build; the function falls through to `return (0)`, so the
load reports success with `use_ef` set and a failed EF structure. -/
theorem C4_load_swallows_build_error :
    envC4.build_efcode0_rval = eflist_spill_too_small ∧
    (bvgraph_load_external envC4 2 true 0 true).rval = 0 ∧
    (bvgraph_load_external envC4 2 true 0 true).use_ef = true := by
  decide

/-! ### Claim C5: dense-vs-EF selection in load and required_memory -/

def envC5load : load_env := { envC4 with n := 1 }

def envC5mem : mem_env := { fsize_ok := true, graphfilesize := 100, build_last := 40 }

/-- C5 counterexample: with `n = 1` and `offset_step = 3`,
`bvgraph_load_external` picks the EF representation (8·1 > 3, bytes) while
`bvgraph_required_memory` reports the dense offsets buffer
(3·2^20 ≥ 8, megabytes), so the dense buffer is not reported "under exactly
the same condition" `8n ≤ offset_step` that the loader uses. -/
theorem C5_counterexample :
    ¬ ((((bvgraph_load_external envC5load 3 true 0 true).use_ef = false) ↔ (8 * 1 : Int) ≤ 3) ∧
       ((((bvgraph_required_memory envC5mem 1 3).2.2.1 ≠ 0) ∧
         ((bvgraph_required_memory envC5mem 1 3).2.2.2 = 0)) ↔ (8 * 1 : Int) ≤ 3)) := by
  decide

/-- C5 amended: for `offset_step > 2`, `n ≥ 1` and successful file
operations, `bvgraph_load_external` chooses the dense offsets exactly when
`8n ≤ offset_step` with both sides in bytes, while
`bvgraph_required_memory` reports the dense offsets buffer (nonzero
`offsetbuf`, zero `efbuf`) exactly when `8n ≤ offset_step · 2^20` — the
megabyte reading of the same parameter — so the two functions agree only
where the two inequalities coincide and can disagree whenever
`offset_step < 8n ≤ offset_step · 2^20`. -/
theorem C5_amended (n : Nat) (offset_step : Int) (env : load_env) (menv : mem_env)
    (hstep : 2 < offset_step) (hn : 0 < n) (hneq : env.n = n)
    (h1 : env.filename_too_long = false) (h2 : env.parse_rval = 0)
    (h3 : env.fsize_ok = true) (h4 : env.malloc_ok = true)
    (h5 : env.fopen_ok = true) (h6 : env.bytesread = env.graphfilesize)
    (h7 : menv.fsize_ok = true) :
    ((bvgraph_load_external env offset_step true 0 true).use_ef = false ↔
        (8 * n : Int) ≤ offset_step) ∧
    ((((bvgraph_required_memory menv n offset_step).2.2.1 = 8 * n) ∧
      ((bvgraph_required_memory menv n offset_step).2.2.2 = 0)) ↔
        (8 * n : Int) ≤ offset_step * 1048576) := by
  constructor
  · unfold bvgraph_load_external
    rw [h1, h2, h3, h5, h6]
    rw [if_neg (show ¬ (false = true) by decide)]
    rw [if_neg (show ¬ ((0 : Int) ≠ 0) by simp)]
    rw [if_pos (show (0 : Int) ≤ offset_step by omega)]
    rw [if_neg (show ¬ (true = false) by decide)]
    rw [if_neg (show ¬ ((true = false) ∧ 0 < env.graphfilesize) by simp)]
    rw [if_neg (show ¬ ((true = true) ∧ env.malloc_ok = false) by simp [h4])]
    simp only []
    rw [if_neg (show ¬ (true = false) by decide)]
    rw [if_neg (show ¬ (env.graphfilesize ≠ env.graphfilesize) by simp)]
    unfold bvgraph_load_body
    rw [hneq]
    rw [if_neg (show ¬ (offset_step = 1) by omega)]
    rw [if_neg (show ¬ (offset_step = 2) by omega)]
    rw [if_pos hstep]
    by_cases hc : (8 * n : Int) > offset_step
    · rw [if_pos hc]
      constructor
      · intro hu; simp at hu
      · intro hle; omega
    · rw [if_neg hc]
      constructor
      · intro _; omega
      · intro _; simp
  · unfold bvgraph_required_memory
    rw [h7]
    rw [if_neg (show ¬ (offset_step ≤ -1) by omega)]
    rw [if_neg (show ¬ (true = false) by decide)]
    rw [if_neg (show ¬ (offset_step = 1) by omega)]
    rw [if_neg (show ¬ (offset_step = 2) by omega)]
    rw [if_pos hstep]
    rw [show (((1 <<< 20 : Nat) : Int)) = 1048576 from by decide]
    by_cases hm : offset_step * 1048576 ≥ (8 * n : Int)
    · rw [if_pos hm]
      simp only []
      constructor
      · intro _; omega
      · intro _; simp
    · rw [if_neg hm]
      simp only []
      constructor
      · intro hh
        have h0 : (0 : Nat) = 8 * n := hh.1
        omega
      · intro hle; omega

/-- C5 amended, witness at `n = 1`, `offset_step = 3`: the loader picks the
EF side (8 > 3) and required_memory picks the dense side (8 ≤ 3·2^20). -/
theorem C5_amended_witness :
    ((bvgraph_load_external envC5load 3 true 0 true).use_ef = false ↔ (8 : Int) ≤ 3) ∧
    ((((bvgraph_required_memory envC5mem 1 3).2.2.1 = 8) ∧
      ((bvgraph_required_memory envC5mem 1 3).2.2.2 = 0)) ↔ (8 : Int) ≤ 3 * 1048576) := by
  exact C5_amended 1 3 envC5load envC5mem (by decide) (by decide) (by decide) (by decide)
    (by decide) (by decide) (by decide) (by decide) (by decide) (by decide)

/-- C6: the claim states that `bvgraph_close` releases every internal
buffer, including the Elias-Fano arrays when `use_ef` is set.  The source
`memset`s the descriptor to zero before testing `g->use_ef`, so
`eflist_free` is never called: on a graph with `use_ef` set the close path
reports no EF free (`freed_ef = false`), leaking the EF allocations. -/
theorem C6_close_never_frees_ef :
    (bvgraph_close { memory_external := false, offsets_external := true, use_ef := true }).freed_ef
        = false ∧
    ({ memory_external := false, offsets_external := true, use_ef := true } : bvgraph_state).use_ef
        = true := by
  decide

/-! ### Claim C7: eflist_add / eflist_addbatch error behaviour -/

/-- `pairsOK` is false on any list with a decreasing adjacent pair. -/
theorem pairsOK_false_of_desc :
    ∀ (arr : List Nat) (i : Nat) (h : i + 1 < arr.length),
      arr.get ⟨i + 1, h⟩ < arr.get ⟨i, by omega⟩ → pairsOK arr = false := by
  intro arr
  induction arr with
  | nil => intro i h; simp at h
  | cons a rest ih =>
    intro i h hlt
    cases rest with
    | nil => simp at h
    | cons b rest2 =>
      cases i with
      | zero =>
        simp only [List.get] at hlt
        unfold pairsOK
        rw [if_neg (by omega)]
      | succ j =>
        unfold pairsOK
        by_cases hab : a ≤ b
        · rw [if_pos hab]
          exact ih j (by simpa using h) (by simpa using hlt)
        · rw [if_neg hab]

/-- C7 counterexample: the claim states `eflist_add` rejects an element
smaller than the previously added one.  After `eflist_init 2 10` and adding
5, adding the smaller element 3 returns 0 — neither `out_of_bound` nor
`batch_nondecreasing` — because `eflist_add` performs no order check. -/
theorem C7_counterexample :
    ¬ ((eflist_add (eflist_add (eflist_init 2 10) 5).2 3).1 = eflist_out_of_bound ∨
       (eflist_add (eflist_add (eflist_init 2 10) 5).2 3).1 = eflist_batch_nondecreasing) := by
  decide

/-- C7 amended: `eflist_add` fails with `out_of_bound` exactly when the list
already holds its declared number of elements, leaving the list unchanged in
that case; `eflist_add` itself performs no monotonicity check (a smaller
element is accepted), and only `eflist_addbatch` rejects an array containing
a decreasing adjacent pair, returning `batch_nondecreasing` and leaving the
list unchanged. -/
theorem C7_amended :
    (∀ (ef : elias_fano_list) (elem : Nat),
        ((eflist_add ef elem).1 = eflist_out_of_bound ↔ ef.lower.curr ≥ ef.size) ∧
        (ef.lower.curr ≥ ef.size → (eflist_add ef elem).2 = ef)) ∧
    (∀ (ef : elias_fano_list) (arr : List Nat) (i : Nat) (h : i + 1 < arr.length),
        arr.get ⟨i + 1, h⟩ < arr.get ⟨i, by omega⟩ →
        eflist_addbatch ef arr = (eflist_batch_nondecreasing, ef)) := by
  constructor
  · intro ef elem
    unfold eflist_add
    by_cases hc : ef.lower.curr ≥ ef.size
    · rw [if_pos hc]
      exact ⟨by simp [hc], fun _ => rfl⟩
    · rw [if_neg hc]
      refine ⟨⟨fun hh => ?_, fun hh => absurd hh hc⟩, fun hh => absurd hh hc⟩
      have h0 : (0 : Int) = eflist_out_of_bound := hh
      exact absurd h0 (by decide)
  · intro ef arr i h hlt
    unfold eflist_addbatch
    rw [pairsOK_false_of_desc arr i h hlt]
    simp

/-- C7 amended, witness: a full list rejects with `out_of_bound`, and the
batch [4, 7, 5] (decreasing pair at positions 1, 2) is rejected with
`batch_nondecreasing`. -/
theorem C7_amended_witness :
    ((eflist_add (eflist_init 0 7) 4).1 = eflist_out_of_bound ↔
        (eflist_init 0 7).lower.curr ≥ (eflist_init 0 7).size) ∧
    eflist_addbatch (eflist_init 3 10) [4, 7, 5] = (eflist_batch_nondecreasing, eflist_init 3 10) :=
  ⟨(C7_amended.1 (eflist_init 0 7) 4).1,
   C7_amended.2 (eflist_init 3 10) [4, 7, 5] 1 (by decide) (by decide)⟩

/-! ### Claim C8: the concrete EF example [5, 10, 15, 20] with u = 20 -/

def e8 : elias_fano_list := (eflist_addbatch (eflist_init 4 20) [5, 10, 15, 20]).2

def e8b : elias_fano_list := (simple_select_build e8 4 false).2

/-- C8 counterexample: the claim asserts `s = 1` and an upper bit array of
14 bits; `eflist_init 4 20` computes `s = (int) log2((20+1)/4) =
(int) log2 5 = 2` and an upper array of `4 + (20 >> 2) = 9` bits, so the
claimed conjunction fails on its first two conjuncts already. -/
theorem C8_counterexample :
    ¬ ((eflist_init 4 20).s = 1 ∧ (eflist_init 4 20).bitarraylen = 14) := by
  decide

/-- C8 amended: the sequence [5, 10, 15, 20] with `u = 20` yields `s = 2`,
an upper bit array of length 9 with bits set exactly at positions
{1, 3, 5, 8}, lower-bit values [1, 2, 3, 0], and `eflist_lookup 1 = 10`
(the lookup result claimed is correct even though `s`, the array length,
and the bit positions differ from the claim). -/
theorem C8_amended :
    (eflist_init 4 20).s = 2 ∧
    (eflist_init 4 20).bitarraylen = 9 ∧
    (eflist_addbatch (eflist_init 4 20) [5, 10, 15, 20]).1 = 0 ∧
    (simple_select_build e8 4 false).1 = 0 ∧
    (List.range 9).map (get_bitk e8b.upper.A) = [0, 1, 0, 1, 0, 1, 0, 0, 1] ∧
    (List.range 4).map (bit_array_get e8b.lower) = [1, 2, 3, 0] ∧
    eflist_lookup e8b 1 = 10 := by
  decide

/-- C9: `bvgraph_error_string` returns a non-empty string for every integer
code, and for the documented code `bvgraph_unsupported_version = 22` it
returns the generic "unknown error" message (the branch intended for it
compares against `bvgraph_call_io_error` a second time and is dead). -/
theorem C9_error_string_total :
    (∀ code : Int, bvgraph_error_string code ≠ "") ∧
    bvgraph_error_string bvgraph_unsupported_version = "unknown error" := by
  constructor
  · intro code
    unfold bvgraph_error_string
    split_ifs <;> decide
  · decide

/-- Reference population count: the number of indices `i < 64` at which the
bit of `x` is set. -/
def popcount64 (x : Nat) : Nat := (List.range 64).countP (fun i => x.testBit i)

/-- Sum of the `n` contiguous `w`-bit fields of `x`, starting at the low end. -/
def sumFields (w : Nat) : Nat → Nat → Nat
  | 0, _ => 0
  | n + 1, x => x % 2 ^ w + sumFields w n (x >>> w)

/-- The SWAR mask with the low `w` bits of each of `n` fields of width `2 * w`
set: the shape of the constants `m1`, ..., `m32`. -/
def maskN (w : Nat) : Nat → Nat
  | 0 => 0
  | n + 1 => (2 ^ w - 1) + 2 ^ (2 * w) * maskN w n

/-- One line of `bit_count`: mask, shift-mask, add, wrap modulo `2 ^ 64`. -/
def swarStep (w m x : Nat) : Nat := ((x &&& m) + (asr64 x w &&& m)) % 2 ^ 64

lemma testBit_add_high {k u : Nat} (v : Nat) (hu : u < 2 ^ k) (i : Nat) :
    (u + 2 ^ k * v).testBit i = if i < k then u.testBit i else v.testBit (i - k) := by
  rw [Nat.add_comm, Nat.testBit_mul_pow_two_add v hu i]

lemma land_split {k u a : Nat} (v b : Nat) (hu : u < 2 ^ k) (ha : a < 2 ^ k) :
    (u + 2 ^ k * v) &&& (a + 2 ^ k * b) = (u &&& a) + 2 ^ k * (v &&& b) := by
  have hua : u &&& a < 2 ^ k := Nat.lt_of_le_of_lt Nat.and_le_left hu
  apply Nat.eq_of_testBit_eq
  intro i
  rw [Nat.testBit_land, testBit_add_high v hu i, testBit_add_high b ha i,
    testBit_add_high (v &&& b) hua i, Nat.testBit_land, Nat.testBit_land]
  by_cases h : i < k <;> simp [h]

lemma asr64_land (x s m : Nat) (h : ((1 <<< s) - 1) <<< (64 - s) &&& m = 0) :
    asr64 x s &&& m = (x >>> s) &&& m := by
  unfold asr64
  by_cases hb : x.testBit 63
  · rw [if_pos hb]
    apply Nat.eq_of_testBit_eq
    intro i
    have h0 : (((1 <<< s) - 1) <<< (64 - s) &&& m).testBit i = false := by
      rw [h]; exact Nat.zero_testBit i
    rw [Nat.testBit_land] at h0
    rw [Nat.testBit_land, Nat.testBit_lor, Nat.testBit_land]
    cases hA : (((1 <<< s) - 1) <<< (64 - s)).testBit i <;>
      cases hm2 : m.testBit i <;> simp_all
  · rw [if_neg hb, Nat.or_zero]

lemma swar_stage (w : Nat) (hw : 1 ≤ w) :
    ∀ n x, x < 2 ^ (2 * w * n) →
      sumFields (2 * w) n ((x &&& maskN w n) + ((x >>> w) &&& maskN w n))
        = sumFields w (2 * n) x := by
  intro n
  induction n with
  | zero =>
    intro x hx
    simp [sumFields]
  | succ n ih =>
    intro x hx
    have hp : 0 < 2 ^ w := by positivity
    have hpp : 0 < 2 ^ (2 * w) := by positivity
    have hsq : 2 ^ (2 * w) = 2 ^ w * 2 ^ w := by rw [two_mul, pow_add]
    set u := x % 2 ^ (2 * w) with hudef
    set v := x >>> (2 * w) with hvdef
    have hu : u < 2 ^ (2 * w) := Nat.mod_lt _ hpp
    have hxd : x = u + 2 ^ (2 * w) * v := by
      rw [hudef, hvdef, Nat.shiftRight_eq_div_pow]
      exact (Nat.mod_add_div x (2 ^ (2 * w))).symm
    have hv : v < 2 ^ (2 * w * n) := by
      rw [hvdef, Nat.shiftRight_eq_div_pow]
      apply Nat.div_lt_of_lt_mul
      calc x < 2 ^ (2 * w * (n + 1)) := hx
        _ = 2 ^ (2 * w) * 2 ^ (2 * w * n) := by rw [← pow_add]; congr 1; ring
    have hm : maskN w (n + 1) = (2 ^ w - 1) + 2 ^ (2 * w) * maskN w n := by
      simp [maskN]
    have hm1 : (2 : Nat) ^ w - 1 < 2 ^ (2 * w) := by
      have h2 : (2 : Nat) ^ w ≤ 2 ^ (2 * w) := Nat.pow_le_pow_right (by norm_num) (by omega)
      omega
    have hA : x &&& maskN w (n + 1) = u % 2 ^ w + 2 ^ (2 * w) * (v &&& maskN w n) := by
      rw [hxd, hm, land_split v (maskN w n) hu hm1, Nat.and_pow_two_sub_one_eq_mod]
    have huw : u >>> w < 2 ^ w := by
      rw [Nat.shiftRight_eq_div_pow]
      apply Nat.div_lt_of_lt_mul
      rw [← hsq]; exact hu
    have hxw : x >>> w = (u >>> w + 2 ^ w * (v % 2 ^ w)) + 2 ^ (2 * w) * (v >>> w) := by
      rw [hxd]
      rw [Nat.shiftRight_eq_div_pow, Nat.shiftRight_eq_div_pow, Nat.shiftRight_eq_div_pow,
        hsq, Nat.mul_assoc, Nat.add_mul_div_left _ _ hp]
      have hvd : v = v % 2 ^ w + 2 ^ w * (v / 2 ^ w) := (Nat.mod_add_div v (2 ^ w)).symm
      conv_lhs => rw [hvd]
      ring
    have hlow : u >>> w + 2 ^ w * (v % 2 ^ w) < 2 ^ (2 * w) := by
      have h1 : v % 2 ^ w < 2 ^ w := Nat.mod_lt _ hp
      have h2 : 2 ^ w * (v % 2 ^ w) ≤ 2 ^ w * (2 ^ w - 1) := Nat.mul_le_mul_left _ (by omega)
      have h3 : 2 ^ w * (2 ^ w - 1) = 2 ^ w * 2 ^ w - 2 ^ w := by
        rw [Nat.mul_sub_one]
      rw [hsq]
      omega
    have hB : (x >>> w) &&& maskN w (n + 1)
        = u >>> w + 2 ^ (2 * w) * ((v >>> w) &&& maskN w n) := by
      rw [hxw, hm, land_split (v >>> w) (maskN w n) hlow hm1,
        Nat.and_pow_two_sub_one_eq_mod, Nat.add_mul_mod_self_left,
        Nat.mod_eq_of_lt huw]
    set Yv := (v &&& maskN w n) + ((v >>> w) &&& maskN w n) with hYv
    have hY : (x &&& maskN w (n + 1)) + ((x >>> w) &&& maskN w (n + 1))
        = (u % 2 ^ w + u >>> w) + 2 ^ (2 * w) * Yv := by
      rw [hA, hB, hYv]; ring
    have hs : u % 2 ^ w + u >>> w < 2 ^ (2 * w) := by
      have h1 : u % 2 ^ w < 2 ^ w := Nat.mod_lt _ hp
      have h2w : (2 : Nat) ≤ 2 ^ w := by
        calc (2 : Nat) = 2 ^ 1 := rfl
          _ ≤ 2 ^ w := Nat.pow_le_pow_right (by norm_num) hw
      calc u % 2 ^ w + u >>> w < 2 ^ w + 2 ^ w := Nat.add_lt_add h1 huw
        _ = 2 * 2 ^ w := by ring
        _ ≤ 2 ^ w * 2 ^ w := Nat.mul_le_mul_right _ h2w
        _ = 2 ^ (2 * w) := hsq.symm
    have hL : sumFields (2 * w) (n + 1) ((u % 2 ^ w + u >>> w) + 2 ^ (2 * w) * Yv)
        = (u % 2 ^ w + u >>> w) + sumFields (2 * w) n Yv := by
      simp only [sumFields]
      rw [Nat.add_mul_mod_self_left, Nat.mod_eq_of_lt hs,
        Nat.shiftRight_eq_div_pow _ (2 * w), Nat.add_mul_div_left _ _ hpp,
        Nat.div_eq_of_lt hs, Nat.zero_add]
    have hxmod : x % 2 ^ w = u % 2 ^ w := by
      rw [hudef]
      exact (Nat.mod_mod_of_dvd x (pow_dvd_pow 2 (by omega))).symm
    have hxwmod : (x >>> w) % 2 ^ w = u >>> w := by
      rw [hxw, hsq, Nat.mul_assoc, Nat.add_mul_mod_self_left,
        Nat.add_mul_mod_self_left, Nat.mod_eq_of_lt huw]
    have hxww : x >>> w >>> w = v := by
      rw [← Nat.shiftRight_add]
      have hww : w + w = 2 * w := by ring
      rw [hww, ← hvdef]
    have h2n : 2 * (n + 1) = (2 * n + 1) + 1 := by ring
    have hR : sumFields w (2 * (n + 1)) x
        = u % 2 ^ w + (u >>> w + sumFields w (2 * n) v) := by
      rw [h2n]
      simp only [sumFields]
      rw [hxmod, hxwmod, hxww]
    rw [hY, hL, hR, hYv, ih _ hv]
    ring

lemma sumFields_one_eq : ∀ (n x : Nat),
    sumFields 1 n x = (List.range n).countP (fun i => x.testBit i) := by
  intro n
  induction n with
  | zero => intro x; simp [sumFields]
  | succ n ih =>
    intro x
    rw [List.range_succ_eq_map, List.countP_cons, List.countP_map]
    have hshift : ((List.range n).countP fun i => (x >>> 1).testBit i)
        = (List.range n).countP ((fun i => x.testBit i) ∘ Nat.succ) := by
      apply List.countP_congr
      intro a _
      simp [Nat.testBit_shiftRight, Nat.add_comm 1 a, Nat.succ_eq_add_one]
    have hbit0 : x % 2 = if x.testBit 0 then 1 else 0 := by
      simp only [Nat.testBit_zero]
      rcases Nat.mod_two_eq_zero_or_one x with h | h <;> simp [h]
    simp only [sumFields]
    rw [ih (x >>> 1), hshift, pow_one, hbit0]
    ring

lemma swarStep_sum {w n m : Nat} (x : Nat) (hw : 1 ≤ w) (hm : m = maskN w n)
    (hwn : 2 * w * n = 64) (hext : ((1 <<< w) - 1) <<< (64 - w) &&& m = 0)
    (hmlt : 2 * m < 2 ^ 64) (hx : x < 2 ^ 64) :
    sumFields (2 * w) n (swarStep w m x) = sumFields w (2 * n) x ∧
      swarStep w m x < 2 ^ 64 := by
  have hlt : (x &&& m) + ((x >>> w) &&& m) < 2 ^ 64 :=
    Nat.lt_of_le_of_lt (Nat.add_le_add Nat.and_le_right Nat.and_le_right) (by omega)
  have hstep : swarStep w m x = (x &&& m) + ((x >>> w) &&& m) := by
    unfold swarStep
    rw [asr64_land x w m hext, Nat.mod_eq_of_lt hlt]
  refine ⟨?_, by rw [hstep]; exact hlt⟩
  rw [hstep, hm]
  exact swar_stage w hw n x (by rw [hwn]; exact hx)

/-- `bit_count` is the six-fold composition of `swarStep` with the masks. -/
lemma bit_count_eq_steps (x : Nat) :
    bit_count x = swarStep 32 m32 (swarStep 16 m16 (swarStep 8 m8
      (swarStep 4 m4 (swarStep 2 m2 (swarStep 1 m1 x))))) := rfl

/-- C10: for every 64-bit word `x`, `bit_count x` equals the number of set
bits of `x` (the reference population count `popcount64`). -/
theorem C10_bit_count_popcount (x : Nat) (hx : x < 2 ^ 64) :
    bit_count x = popcount64 x := by
  obtain ⟨s1, b1⟩ := swarStep_sum (w := 1) (n := 32) (m := m1) x (by norm_num)
    (by decide) (by norm_num) (by decide) (by decide) hx
  obtain ⟨s2, b2⟩ := swarStep_sum (w := 2) (n := 16) (m := m2) _ (by norm_num)
    (by decide) (by norm_num) (by decide) (by decide) b1
  obtain ⟨s3, b3⟩ := swarStep_sum (w := 4) (n := 8) (m := m4) _ (by norm_num)
    (by decide) (by norm_num) (by decide) (by decide) b2
  obtain ⟨s4, b4⟩ := swarStep_sum (w := 8) (n := 4) (m := m8) _ (by norm_num)
    (by decide) (by norm_num) (by decide) (by decide) b3
  obtain ⟨s5, b5⟩ := swarStep_sum (w := 16) (n := 2) (m := m16) _ (by norm_num)
    (by decide) (by norm_num) (by decide) (by decide) b4
  obtain ⟨s6, b6⟩ := swarStep_sum (w := 32) (n := 1) (m := m32) _ (by norm_num)
    (by decide) (by norm_num) (by decide) (by decide) b5
  have hcollapse : sumFields 64 1 (swarStep 32 m32 (swarStep 16 m16 (swarStep 8 m8
      (swarStep 4 m4 (swarStep 2 m2 (swarStep 1 m1 x))))))
      = swarStep 32 m32 (swarStep 16 m16 (swarStep 8 m8
        (swarStep 4 m4 (swarStep 2 m2 (swarStep 1 m1 x))))) := by
    simp only [sumFields]
    rw [Nat.mod_eq_of_lt b6, Nat.add_zero]
  rw [bit_count_eq_steps, ← hcollapse]
  norm_num at s1 s2 s3 s4 s5 s6
  rw [s6, s5, s4, s3, s2, s1]
  exact sumFields_one_eq 64 x

/-- Witness for C10 at a concrete 64-bit input. -/
theorem C10_witness :
    (0xdeadbeef0badf00d : Nat) < 2 ^ 64 ∧
      bit_count 0xdeadbeef0badf00d = popcount64 0xdeadbeef0badf00d :=
  ⟨by decide, C10_bit_count_popcount 0xdeadbeef0badf00d (by decide)⟩

end LibBVG
